import Mathlib

/-!
Verification development for the vuex-crud repository: a shallow embedding of
the CRUD module builder (`CrudModule`, `CrudModuleFactory`, `buildState`,
`buildActions`, `buildMutations`, `generateAxiosRequestConfig`) and of the
action executor (`Action.execute`), together with theorems about the loading
flag, the error path, the success path, the default request descriptors, the
default mutations and the module assembly.

JavaScript values are modelled by the inductive type `Value`; Vuex store
state and JS object literals are modelled by association lists with
unique-key update (`Obj`); an `execute` call is modelled as a pure function
from the action configuration, the HTTP outcome and the input data to a
trace of commits, callback invocations, the returned value and the error
propagated out of the call, if any.
-/

namespace VuexCrud

/-- A JavaScript runtime value: `undefined`, `null`, booleans, numbers
(restricted to integers; no claim involves fractional numbers), strings,
arrays and plain objects (field lists). -/
inductive Value where
  | vUndefined
  | vNull
  | vBool (b : Bool)
  | vNum (n : Int)
  | vStr (s : String)
  | vArr (elems : List Value)
  | vObj (fields : List (String × Value))

/-- JS truthiness: `undefined`, `null`, `false`, `0` and the empty string are
falsy; every other value (arrays and objects included) is truthy. -/
def truthy : Value → Bool
  | .vUndefined => false
  | .vNull => false
  | .vBool b => b
  | .vNum n => n != 0
  | .vStr s => s != ""
  | .vArr _ => true
  | .vObj _ => true

/-- The `isArray` check from `src/utils` (`Array.isArray`). -/
def isArray : Value → Bool
  | .vArr _ => true
  | _ => false

/-- JS strict equality `===`: structural on primitives (`undefined === undefined`
and `null === null` are true, values of different primitive types are never
equal); arrays and objects compare by reference, and every literal in this
embedding is a fresh reference, so two composite values are never `===`. -/
def strictEq : Value → Value → Bool
  | .vUndefined, .vUndefined => true
  | .vNull, .vNull => true
  | .vBool a, .vBool b => a == b
  | .vNum a, .vNum b => a == b
  | .vStr a, .vStr b => a == b
  | _, _ => false

/-- JS property access `v[key]`: on an object, the field's value (with the
last binding winning, as in object-literal construction); on anything else,
and on a missing field, `undefined`. -/
def Value.getField : Value → String → Value
  | .vObj fields, key =>
      match fields.reverse.find? (fun p => p.1 == key) with
      | some p => p.2
      | none => .vUndefined
  | _, _ => .vUndefined

mutual

/-- JS string coercion as used by template-literal interpolation. -/
def Value.toDisplayString : Value → String
  | .vUndefined => "undefined"
  | .vNull => "null"
  | .vBool b => if b then "true" else "false"
  | .vNum n => toString n
  | .vStr s => s
  | .vArr elems => joinDisplay elems
  | .vObj _ => "[object Object]"

/-- Comma-join of element coercions, as in `Array.prototype.toString`. -/
def joinDisplay : List Value → String
  | [] => ""
  | [x] => x.toDisplayString
  | x :: y :: rest => x.toDisplayString ++ "," ++ joinDisplay (y :: rest)

end

/-- A JS object as an association list; keys are unique by construction
(`Obj.set` replaces in place), matching JS object identity of keys. -/
abbrev Obj (V : Type) := List (String × V)

/-- Property read: the first binding of the key, if any. -/
def Obj.get {V : Type} : Obj V → String → Option V
  | [], _ => none
  | (k, v) :: rest, key => if k = key then some v else Obj.get rest key

/-- Property write `o[key] = value`: replaces the first binding of the key in
place (keeping its position, as JS objects keep key insertion order), or
appends a new binding. -/
def Obj.set {V : Type} : Obj V → String → V → Obj V
  | [], key, value => [(key, value)]
  | (k, v) :: rest, key, value =>
      if k = key then (key, value) :: rest else (k, v) :: Obj.set rest key value

/-- Object spread-merge: every binding of `extra` written over `base` in
order, so later bindings win on key collision, as in JS spread or
`Object.assign`. -/
def Obj.merge {V : Type} (base extra : Obj V) : Obj V :=
  extra.foldl (fun acc p => Obj.set acc p.1 p.2) base

/-- A Vuex module state tree: a JS object of state keys. -/
abbrev StoreState := Obj Value

/-- `state[key]` on the state tree: a missing key reads as `undefined`. -/
def StoreState.read (st : StoreState) (key : String) : Value :=
  (Obj.get st key).getD .vUndefined

/-- A Vuex mutation as committed by this package: it receives the state and
the committed payload's `data` and `actionData` fields, and either returns
the updated state or throws (models the `throw new Error` branches). -/
abbrev MutationFun := StoreState → Value → Value → Except String StoreState

/-- The `setItems` default mutation: `state[items] = data`. -/
def setItemsMutFn (itemsKey : String) : MutationFun := fun st data _ =>
  .ok (Obj.set st itemsKey data)

/-- The `setCurrentItem` default mutation: `state[currentItem] = data`. -/
def setCurrentItemMutFn (currentItemKey : String) : MutationFun := fun st data _ =>
  .ok (Obj.set st currentItemKey data)

/-- The `addItem` default mutation: if the collection state is falsy it is
first reset to `[]`; then, if it is an array the payload is pushed, otherwise
an error is thrown. -/
def addItemMutFn (itemsKey : String) : MutationFun := fun st data _ =>
  let st1 := if truthy (StoreState.read st itemsKey) then st
             else Obj.set st itemsKey (.vArr [])
  match StoreState.read st1 itemsKey with
  | .vArr xs => .ok (Obj.set st1 itemsKey (.vArr (xs ++ [data])))
  | _ => .error (itemsKey ++ " state is not an array")

/-- The `updateItem` default mutation: on an array collection, the first
element whose id attribute is `===` to the payload's id attribute is replaced
in place (`findIndex`); when no element matches, nothing changes; on a
non-array collection an error is thrown. -/
def updateItemMutFn (itemsKey idAttribute : String) : MutationFun := fun st data _ =>
  match StoreState.read st itemsKey with
  | .vArr xs =>
      match xs.findIdx?
          (fun e => strictEq (e.getField idAttribute) (data.getField idAttribute)) with
      | some index => .ok (Obj.set st itemsKey (.vArr (xs.set index data)))
      | none => .ok st
  | _ => .error (itemsKey ++ " state is not an array")

/-- The `deleteItem` default mutation: on an array collection, keep the
elements whose id attribute is not `===` to the committed payload's
`actionData` (the action's original input); on a non-array collection do
nothing (no error). -/
def deleteItemMutFn (itemsKey idAttribute : String) : MutationFun := fun st _ actionData =>
  match StoreState.read st itemsKey with
  | .vArr xs =>
      .ok (Obj.set st itemsKey
        (.vArr (xs.filter (fun e => !(strictEq (e.getField idAttribute) actionData)))))
  | _ => .ok st

/-- The loading mutation contributed by `Action.mutations`: stores
`Boolean(data)` under the loading state key. -/
def loadingMutFn (loadingStateKey : String) : MutationFun := fun st data _ =>
  .ok (Obj.set st loadingStateKey (.vBool (truthy data)))

/-- The `CrudAction` kinds. TS enums are strings at runtime and
`generateAxiosRequestConfig` only compares its argument against the five
known kinds, so an `other` constructor carries any non-CRUD runtime value
reaching the generator (its string form, used in the thrown message). -/
inductive CrudAction where
  | fetchItems
  | getItem
  | createItem
  | deleteItem
  | updateItem
  | other (invalid : String)

/-- An `APIDefinition`: the Axios request shape plus the two response
mappers. -/
structure APIDefinition where
  method : String
  url : String
  params : Option Value
  data : Option Value
  dataMapper : Value → Value
  stateMapper : Value → Value

/-- A `PartialAPIDefinition`: the per-kind part of the request shape built by
the generator before the mappers are attached (`params` is never set
there). -/
structure PartialAPIDefinition where
  method : String
  url : String
  data : Option Value

/-- The type of the `customAPIDefinition` hook: it receives the default
definition, the resource name, the action kind and the input data, and its
return value replaces the default wholesale. -/
abbrev CustomAPIDefinitionFunction :=
  APIDefinition → String → CrudAction → Value → APIDefinition

/-- The default `generateAxiosRequestConfig` closure from the `CrudModule`
constructor: per-kind method/url/body, identity mappers, the custom hook
applied last when configured, and a thrown error on any unknown kind. -/
def generateAxiosRequestConfig (idAttribute : String)
    (customAPIDefinition : Option CustomAPIDefinitionFunction)
    (resource : String) (action : CrudAction) (actionData : Value) :
    Except String APIDefinition :=
  let finish : PartialAPIDefinition → Except String APIDefinition := fun partDef =>
    let definition : APIDefinition :=
      { method := partDef.method, url := partDef.url, params := none,
        data := partDef.data, dataMapper := fun e => e, stateMapper := fun e => e }
    match customAPIDefinition with
    | none => .ok definition
    | some custom => .ok (custom definition resource action actionData)
  match action with
  | .fetchItems => finish { method := "GET", url := "/" ++ resource, data := none }
  | .getItem =>
      finish { method := "GET",
               url := "/" ++ resource ++ "/" ++ actionData.toDisplayString,
               data := none }
  | .createItem =>
      finish { method := "POST", url := "/" ++ resource, data := some actionData }
  | .deleteItem =>
      finish { method := "DELETE",
               url := "/" ++ resource ++ "/" ++ actionData.toDisplayString,
               data := none }
  | .updateItem =>
      finish { method := "PUT",
               url := "/" ++ resource ++ "/" ++
                 (actionData.getField idAttribute).toDisplayString,
               data := some actionData }
  | .other invalid => .error (invalid ++ " is not a valid CRUD action")

/-- Modelled from the spec: `ResourceName` (its source file is not under
`src/`; only its import and uses are). The spec describes it as the
resource's singular/plural name forms derived deterministically by
pluralization from the resource string, with the original string retained,
immutable once constructed; the concrete pluralization/casing algorithm is
out of the spec's scope, so it is modelled as a fixed deterministic
derivation (capitalized singular, singular plus a trailing letter as
plural). Every claim below depends only on the derivation being a function
of the resource string. -/
structure ResourceName where
  original : String
  singular : String
  plural : String

/-- Uppercase the first character, as done by the modelled derivation. -/
def capitalizeFirst (s : String) : String :=
  match s.data with
  | [] => ""
  | c :: cs => String.mk (c.toUpper :: cs)

/-- JS `toUpperCase` on the names this package derives (character-wise
uppercasing). -/
def stringToUpper (s : String) : String := String.mk (s.data.map Char.toUpper)

/-- JS `toLowerCase` on the names this package derives (character-wise
lowercasing). -/
def stringToLower (s : String) : String := String.mk (s.data.map Char.toLower)

/-- Modelled from the spec: the `new ResourceName(resource)` construction,
as a deterministic derivation of both name forms from the resource string. -/
def ResourceName.ofString (resource : String) : ResourceName :=
  { original := resource
    singular := capitalizeFirst resource
    plural := capitalizeFirst resource ++ "s" }

/-- A loading-flag mutation descriptor: the mutation type name and the state
key it toggles. -/
structure LoadingMutation where
  name : String
  state : String

/-- The `ActionConfig` handed to one `Action`. The `axios` field is modelled
by the `HttpOutcome` argument of `Action.execute`, and the success/error
callbacks are modelled as trace events rather than stored functions. -/
structure ActionConfig where
  generateConfig : String → CrudAction → Value → Except String APIDefinition
  resourceName : ResourceName
  commitState : Bool
  loadingMutation : LoadingMutation
  mutationName : String
  actionName : String
  actionType : CrudAction

/-- The outcome of the one awaited HTTP call: the parsed response body
`res.data` on fulfilment, or the rejection value. -/
inductive HttpOutcome where
  | success (resData : Value)
  | failure (err : Value)

/-- One `commit(name, payload)` call: the mutation type name and the
payload's `data` and `actionData` fields (`actionData` is `undefined` for
the loading commits, whose payload is the literal object with only
`data`). -/
structure CommitEvent where
  name : String
  data : Value
  actionData : Value

/-- The observable behavior of one `execute` call: the ordered commits, the
success and error callback invocations, the value returned to the caller
(`none` models returning `undefined`), and the error propagated out of the
call when `execute` rejects (`none` when it resolves). -/
structure ExecTrace where
  commits : List CommitEvent
  successCalls : List (CrudAction × Value × String)
  errorCalls : List (CrudAction × Value × String)
  result : Option Value
  thrown : Option String

/-- `Action.execute` from `src/package/src/Action.ts`, as a trace. The
loading-true commit and the request-descriptor generation happen before the
`try` block: a throwing generator rejects the whole call with no further
commit. Inside the `try`, a fulfilled HTTP call commits the primary
mutation when `commitState` is set, invokes the success callback and
returns the data-mapped body; a rejected call invokes the error callback
and falls through with no result; the `finally` block commits loading
false on both of those paths. -/
def Action.execute (cfg : ActionConfig) (outcome : HttpOutcome)
    (actionData : Value) : ExecTrace :=
  match cfg.generateConfig cfg.resourceName.original cfg.actionType actionData with
  | .error e =>
      { commits := [⟨cfg.loadingMutation.name, .vBool true, .vUndefined⟩],
        successCalls := [], errorCalls := [], result := none, thrown := some e }
  | .ok apiDef =>
      match outcome with
      | .success resData =>
          { commits :=
              ⟨cfg.loadingMutation.name, .vBool true, .vUndefined⟩ ::
                (if cfg.commitState then
                  [⟨cfg.mutationName, apiDef.stateMapper resData, actionData⟩]
                 else []) ++
                [⟨cfg.loadingMutation.name, .vBool false, .vUndefined⟩],
            successCalls :=
              [(cfg.actionType, apiDef.stateMapper resData, cfg.resourceName.original)],
            errorCalls := [],
            result := some (apiDef.dataMapper resData),
            thrown := none }
      | .failure err =>
          { commits :=
              [⟨cfg.loadingMutation.name, .vBool true, .vUndefined⟩,
               ⟨cfg.loadingMutation.name, .vBool false, .vUndefined⟩],
            successCalls := [],
            errorCalls := [(cfg.actionType, err, cfg.resourceName.original)],
            result := none,
            thrown := none }

/-- A module action value: the bound `execute` of one action, awaiting the
HTTP outcome and the input data. -/
abbrev ActionValue := HttpOutcome → Value → ExecTrace

/-- The `state` getter of `Action`: one state key, the loading flag,
initialized to `null`. -/
def Action.state (cfg : ActionConfig) : Obj Value :=
  [(cfg.loadingMutation.state, .vNull)]

/-- The `actions` getter of `Action`: one entry binding the action name to
`execute`. -/
def Action.actions (cfg : ActionConfig) : Obj ActionValue :=
  [(cfg.actionName, Action.execute cfg)]

/-- The `mutations` getter of `Action`: one entry binding the loading
mutation name to the boolean-coercing setter of the loading state key. -/
def Action.mutations (cfg : ActionConfig) : Obj MutationFun :=
  [(cfg.loadingMutation.name, loadingMutFn cfg.loadingMutation.state)]

/-- Replay a list of commits against a state tree through a mutations map,
dispatching each commit to the mutation registered under its name (an
unknown mutation type leaves the state unchanged, as Vuex only logs it) and
stopping at the first mutation that throws. -/
def runCommits (muts : Obj MutationFun) :
    StoreState → List CommitEvent → Except String StoreState
  | st, [] => .ok st
  | st, ev :: rest =>
      match Obj.get muts ev.name with
      | none => runCommits muts st rest
      | some f =>
          match f st ev.data ev.actionData with
          | .ok st1 => runCommits muts st1 rest
          | .error e => .error e

/-- The `CrudModuleConfig` produced by the `config` getter of `CrudModule`
(the `axios` field and the two callbacks are modelled inside
`Action.execute`, see `ActionConfig`). -/
structure CrudModuleConfig where
  generateConfig : String → CrudAction → Value → Except String APIDefinition
  resourceName : ResourceName
  commitState : Bool

/-- Modelled from the spec: `ActionFactory` (its source file is not under
`src/`; only its import and uses are). Per the spec the builder constructs
one action executor per default ActionKind from the module configuration
plus that action's loading mutation, primary mutation name, action name and
kind; modelled as assembling the executor's `ActionConfig` from exactly
those parts. -/
def ActionFactory.create (cfg : CrudModuleConfig) (loadingMutation : LoadingMutation)
    (mutationName actionName : String) (actionType : CrudAction) : ActionConfig :=
  { generateConfig := cfg.generateConfig
    resourceName := cfg.resourceName
    commitState := cfg.commitState
    loadingMutation := loadingMutation
    mutationName := mutationName
    actionName := actionName
    actionType := actionType }

/-- The fields of a `CrudModule` instance. The stored
`generateAxiosRequestConfig` closure is represented through the
`idAttribute` and `customAPIDefinition` fields it captures (see
`CrudModule.generateConfig`); the `axios` field and the success/error
callbacks are modelled inside `Action.execute`. -/
structure CrudModule where
  resourceName : ResourceName
  customAPIDefinition : Option CustomAPIDefinitionFunction
  idAttribute : String
  additionalActions : Obj ActionValue
  additionalState : Obj Value
  commitState : Bool
  updateStateAfterAction : Bool
  refreshAfterAction : Bool

/-- The constructor defaults of `CrudModule` other than the resource name:
no custom API definition, id attribute `"id"`, no additional actions or
state, `commitState` on, the two unused flags off. -/
def CrudModule.ofResource (resource : String) : CrudModule :=
  { resourceName := ResourceName.ofString resource
    customAPIDefinition := none
    idAttribute := "id"
    additionalActions := []
    additionalState := []
    commitState := true
    updateStateAfterAction := false
    refreshAfterAction := false }

/-- The instance's `generateAxiosRequestConfig` closure. -/
def CrudModule.generateConfig (m : CrudModule) :
    String → CrudAction → Value → Except String APIDefinition :=
  generateAxiosRequestConfig m.idAttribute m.customAPIDefinition

/-- The `config` getter of `CrudModule`. -/
def CrudModule.config (m : CrudModule) : CrudModuleConfig :=
  { generateConfig := m.generateConfig
    resourceName := m.resourceName
    commitState := m.commitState }

/-- The derived state keys (the private `states` getter): lowercased plural
for the collection, `current` plus the singular for the single item. -/
structure StateKeys where
  items : String
  currentItem : String

/-- The `states` getter of `CrudModule`. -/
def CrudModule.states (m : CrudModule) : StateKeys :=
  { items := stringToLower m.resourceName.plural
    currentItem := "current" ++ m.resourceName.singular }

/-- The derived mutation type names (the private `mutations` getter). -/
structure MutationNames where
  setItems : String
  setCurrentItem : String
  addItem : String
  updateItem : String
  deleteItem : String

/-- The `mutations` getter of `CrudModule` (the five derived names). -/
def CrudModule.mutations (m : CrudModule) : MutationNames :=
  { setItems := "SET_" ++ stringToUpper m.resourceName.plural
    setCurrentItem := "SET_CURRENT_" ++ stringToUpper m.resourceName.singular
    addItem := "ADD_" ++ stringToUpper m.resourceName.singular
    updateItem := "UPDATE_" ++ stringToUpper m.resourceName.singular
    deleteItem := "DELETE_" ++ stringToUpper m.resourceName.singular }

/-- The `actions` getter of `CrudModule`: the five default action executors
created through the action factory, in source order. -/
def CrudModule.actions (m : CrudModule) : List ActionConfig :=
  [ ActionFactory.create m.config
      ⟨"SET_FETCHING_" ++ stringToUpper m.resourceName.plural,
       "fetching" ++ m.resourceName.plural⟩
      (m.mutations.setItems) ("fetch" ++ m.resourceName.plural) .fetchItems,
    ActionFactory.create m.config
      ⟨"SET_GETTING_" ++ stringToUpper m.resourceName.singular,
       "getting" ++ m.resourceName.singular⟩
      (m.mutations.setCurrentItem) ("get" ++ m.resourceName.singular) .getItem,
    ActionFactory.create m.config
      ⟨"SET_CREATING_" ++ stringToUpper m.resourceName.singular,
       "creating" ++ m.resourceName.singular⟩
      (m.mutations.addItem) ("create" ++ m.resourceName.singular) .createItem,
    ActionFactory.create m.config
      ⟨"SET_UPDATING_" ++ stringToUpper m.resourceName.singular,
       "updating" ++ m.resourceName.singular⟩
      (m.mutations.updateItem) ("update" ++ m.resourceName.singular) .updateItem,
    ActionFactory.create m.config
      ⟨"SET_DELETING_" ++ stringToUpper m.resourceName.singular,
       "deleting" ++ m.resourceName.singular⟩
      (m.mutations.deleteItem) ("delete" ++ m.resourceName.singular) .deleteItem ]

/-- `buildActions`: the five default action entries merged in order, then the
additional actions spread over them (later wins). -/
def CrudModule.buildActions (m : CrudModule) : Obj ActionValue :=
  Obj.merge
    (m.actions.foldl (fun acc a => Obj.merge acc (Action.actions a)) [])
    m.additionalActions

/-- `buildState`: the five loading-flag keys, then the two derived state keys
initialized to `null`, then the additional state spread over them (later
wins). -/
def CrudModule.buildState (m : CrudModule) : Obj Value :=
  Obj.merge
    (Obj.merge
      (m.actions.foldl (fun acc a => Obj.merge acc (Action.state a)) [])
      [(m.states.items, .vNull), (m.states.currentItem, .vNull)])
    m.additionalState

/-- `buildMutations`: the five loading mutations merged in order, then the
five default mutations written under their derived names in source order
(no additional mutations exist). -/
def CrudModule.buildMutations (m : CrudModule) : Obj MutationFun :=
  Obj.merge
    (m.actions.foldl (fun acc a => Obj.merge acc (Action.mutations a)) [])
    [ (m.mutations.setItems, setItemsMutFn m.states.items),
      (m.mutations.setCurrentItem, setCurrentItemMutFn m.states.currentItem),
      (m.mutations.addItem, addItemMutFn m.states.items),
      (m.mutations.updateItem, updateItemMutFn m.states.items m.idAttribute),
      (m.mutations.deleteItem, deleteItemMutFn m.states.items m.idAttribute) ]

/-- The emitted Vuex module descriptor. -/
structure Module where
  namespaced : Bool
  state : Obj Value
  actions : Obj ActionValue
  mutations : Obj MutationFun
  getters : Obj Unit

/-- `getModule`: the namespaced module descriptor with the three built maps
and an empty getters map. -/
def CrudModule.getModule (m : CrudModule) : Module :=
  { namespaced := true
    state := m.buildState
    actions := m.buildActions
    mutations := m.buildMutations
    getters := [] }

/-- The `CrudModuleFactory` wrapper; its one field is the template instance
(named `instance` in the source, a reserved word here). -/
structure CrudModuleFactory where
  template : CrudModule

/-- The `Object.assign(Object.create(proto), instance)` shallow copy used by
`CrudModuleFactory.create`, written field by field. -/
def shallowCopy (t : CrudModule) : CrudModule :=
  { resourceName := t.resourceName
    customAPIDefinition := t.customAPIDefinition
    idAttribute := t.idAttribute
    additionalActions := t.additionalActions
    additionalState := t.additionalState
    commitState := t.commitState
    updateStateAfterAction := t.updateStateAfterAction
    refreshAfterAction := t.refreshAfterAction }

/-- `CrudModuleFactory.create(resource)`: shallow-copy the template, give the
copy a fresh resource descriptor, and build its module. The source mutates
only the copy, so this state-passing rendering returns the factory's
template as it stands after the call together with the produced module. -/
def CrudModuleFactory.create (f : CrudModuleFactory) (resource : String) :
    CrudModule × Module :=
  let obj := { shallowCopy f.template with resourceName := ResourceName.ofString resource }
  (f.template, obj.getModule)

/-- `getFactory`. -/
def CrudModule.getFactory (m : CrudModule) : CrudModuleFactory := ⟨m⟩

/-- A concrete fetch-items action configuration for the resource `user`,
using the default request-descriptor generator, used by the witnesses. -/
def fetchCfg : ActionConfig :=
  { generateConfig := generateAxiosRequestConfig "id" none
    resourceName := ResourceName.ofString "user"
    commitState := true
    loadingMutation := { name := "SET_FETCHING_USERS", state := "fetchingUsers" }
    mutationName := "SET_USERS"
    actionName := "fetchUsers"
    actionType := .fetchItems }

/-- The same configuration with the commit-state flag off. -/
def fetchCfgNoCommit : ActionConfig := { fetchCfg with commitState := false }

/-- The same configuration with an action type that is not one of the five
CRUD kinds, so the default generator throws. -/
def badCfg : ActionConfig := { fetchCfg with actionType := .other "badAction" }

/-- A freshly constructed module template for the resource `user`. -/
def userModule : CrudModule := CrudModule.ofResource "user"

/-- The template with additional state, one key of which collides with the
derived collection state key `users`. -/
def userModuleCustom : CrudModule :=
  { userModule with additionalState := [("users", .vNum 7), ("extra", .vStr "x")] }

/-- The default descriptor produced for a fetch-items call on `user` with
identity mappers, used to discharge generator hypotheses in witnesses. -/
def fetchUserDef : APIDefinition :=
  { method := "GET", url := "/user", params := none, data := none,
    dataMapper := fun e => e, stateMapper := fun e => e }

/-! Helper lemmas about the object model and commit replay. -/

theorem Obj.set_set_self {V : Type} (o : Obj V) (k : String) (v w : V) :
    Obj.set (Obj.set o k v) k w = Obj.set o k w := by
  induction o with
  | nil => simp [Obj.set]
  | cons p rest ih =>
      obtain ⟨k1, v1⟩ := p
      by_cases h : k1 = k
      · simp [Obj.set, h]
      · simp [Obj.set, h, ih]

theorem getLast?_cons_append_singleton {α : Type} (a b : α) (mid : List α) :
    (a :: (mid ++ [b])).getLast? = some b := by
  rw [← List.cons_append, List.getLast?_concat]

theorem Obj.merge_nil {V : Type} (base : Obj V) : Obj.merge base [] = base := rfl

theorem Obj.merge_cons {V : Type} (base : Obj V) (p : String × V) (rest : Obj V) :
    Obj.merge base (p :: rest) = Obj.merge (Obj.set base p.1 p.2) rest := rfl

theorem Obj.get_set_self {V : Type} (o : Obj V) (k : String) (v : V) :
    Obj.get (Obj.set o k v) k = some v := by
  induction o with
  | nil => simp [Obj.set, Obj.get]
  | cons p rest ih =>
      obtain ⟨k1, v1⟩ := p
      by_cases h : k1 = k
      · simp [Obj.set, Obj.get, h]
      · simp [Obj.set, Obj.get, h, ih]

theorem Obj.get_set_ne {V : Type} (o : Obj V) (k k' : String) (v : V)
    (h : k' ≠ k) : Obj.get (Obj.set o k v) k' = Obj.get o k' := by
  have h' : k ≠ k' := Ne.symm h
  induction o with
  | nil => simp [Obj.set, Obj.get, h']
  | cons p rest ih =>
      obtain ⟨k1, v1⟩ := p
      by_cases h1 : k1 = k
      · subst h1
        simp [Obj.set, Obj.get, h']
      · simp [Obj.set, Obj.get, h1, ih]

theorem Obj.isSome_get_set {V : Type} (o : Obj V) (k k' : String) (v : V)
    (h : (Obj.get o k').isSome) : (Obj.get (Obj.set o k v) k').isSome := by
  by_cases hk : k' = k
  · subst hk
    simp [Obj.get_set_self]
  · rw [Obj.get_set_ne o k k' v hk]
    exact h

theorem Obj.get_merge_not_mem {V : Type} (extra : Obj V) (base : Obj V) (k : String)
    (h : k ∉ extra.map Prod.fst) :
    Obj.get (Obj.merge base extra) k = Obj.get base k := by
  induction extra generalizing base with
  | nil => rfl
  | cons p rest ih =>
      simp only [List.map_cons, List.mem_cons] at h
      push_neg at h
      rw [Obj.merge_cons, ih _ h.2]
      exact Obj.get_set_ne _ _ _ _ h.1

theorem Obj.get_merge_of_nodup {V : Type} (extra : Obj V) (base : Obj V)
    (k : String) (v : V) (hnd : (extra.map Prod.fst).Nodup)
    (h : Obj.get extra k = some v) :
    Obj.get (Obj.merge base extra) k = some v := by
  induction extra generalizing base with
  | nil => simp [Obj.get] at h
  | cons p rest ih =>
      obtain ⟨k1, v1⟩ := p
      simp only [List.map_cons, List.nodup_cons] at hnd
      by_cases hk : k1 = k
      · subst hk
        simp only [Obj.get, if_pos rfl] at h
        cases h
        rw [Obj.merge_cons, Obj.get_merge_not_mem _ _ _ hnd.1]
        exact Obj.get_set_self _ _ _
      · simp only [Obj.get, if_neg hk] at h
        rw [Obj.merge_cons]
        exact ih _ hnd.2 h

theorem Obj.isSome_get_merge_left {V : Type} (extra : Obj V) (base : Obj V)
    (k : String) (h : (Obj.get base k).isSome) :
    (Obj.get (Obj.merge base extra) k).isSome := by
  induction extra generalizing base with
  | nil => exact h
  | cons p rest ih =>
      rw [Obj.merge_cons]
      exact ih _ (Obj.isSome_get_set _ _ _ _ h)

theorem Obj.isSome_get_merge_of_mem {V : Type} (extra : Obj V) (base : Obj V)
    (k : String) (h : k ∈ extra.map Prod.fst) :
    (Obj.get (Obj.merge base extra) k).isSome := by
  induction extra generalizing base with
  | nil => simp at h
  | cons p rest ih =>
      simp only [List.map_cons, List.mem_cons] at h
      rw [Obj.merge_cons]
      rcases h with h | h
      · subst h
        exact Obj.isSome_get_merge_left _ _ _
          (by simp [Obj.get_set_self])
      · exact ih _ h

theorem runCommits_append (muts : Obj MutationFun) (st : StoreState)
    (evs rest : List CommitEvent) :
    runCommits muts st (evs ++ rest) =
      (runCommits muts st evs).bind (fun st1 => runCommits muts st1 rest) := by
  induction evs generalizing st with
  | nil => rfl
  | cons ev tail ih =>
      simp only [List.cons_append, runCommits]
      cases hg : Obj.get muts ev.name with
      | none => simp only [hg]; exact ih st
      | some f =>
          simp only [hg]
          cases hf : f st ev.data ev.actionData with
          | ok st1 => simp only [hf]; exact ih st1
          | error e => simp only [hf]; rfl

theorem runCommits_last_false (muts : Obj MutationFun) (st st' : StoreState)
    (evs : List CommitEvent) (name key : String)
    (hm : Obj.get muts name = some (loadingMutFn key))
    (hr : runCommits muts st (evs ++ [⟨name, .vBool false, .vUndefined⟩]) = .ok st') :
    Obj.get st' key = some (.vBool false) := by
  rw [runCommits_append] at hr
  cases hpre : runCommits muts st evs with
  | error e => rw [hpre] at hr; exact absurd hr (by simp [Except.bind])
  | ok st1 =>
      rw [hpre] at hr
      simp only [Except.bind, runCommits, hm, loadingMutFn] at hr
      cases hr
      exact Obj.get_set_self _ _ _

theorem findIdx?_first_match {α : Type} (p : α → Bool) (pre post : List α) (e : α)
    (hpre : ∀ x ∈ pre, p x = false) (he : p e = true) :
    (pre ++ e :: post).findIdx? p = some pre.length := by
  induction pre with
  | nil => simp [List.findIdx?_cons, he]
  | cons a tail ih =>
      have ha := hpre a (by simp)
      have htail := ih (fun x hx => hpre x (by simp [hx]))
      simp [List.findIdx?_cons, ha, htail]

theorem set_append_length {α : Type} (pre post : List α) (e x : α) :
    (pre ++ e :: post).set pre.length x = pre ++ x :: post := by
  induction pre with
  | nil => rfl
  | cons a tail ih => simp [List.set, ih]

/-! Claim theorems. -/

/-- C1 (amended): for every execute call whose request-descriptor generation
step succeeds, on every ActionKind and for both HTTP outcomes (success or
failure) the call resolves, the loading-flag mutation is committed with
value true at call start and committed with value false as the final
commit, and replaying the commits through any mutations map that registers
the loading mutation leaves the loading-flag state false. (The original
claim also covered a failing request-descriptor generation step; the
counterexample shows the flag is then left true.) -/
theorem c1_loading_flag_released (cfg : ActionConfig) (outcome : HttpOutcome)
    (actionData : Value) (apiDef : APIDefinition)
    (hgen : cfg.generateConfig cfg.resourceName.original cfg.actionType actionData
      = .ok apiDef) :
    (Action.execute cfg outcome actionData).thrown = none
    ∧ (Action.execute cfg outcome actionData).commits.head? =
        some ⟨cfg.loadingMutation.name, .vBool true, .vUndefined⟩
    ∧ (Action.execute cfg outcome actionData).commits.getLast? =
        some ⟨cfg.loadingMutation.name, .vBool false, .vUndefined⟩
    ∧ ∀ (muts : Obj MutationFun) (st st' : StoreState),
        Obj.get muts cfg.loadingMutation.name =
          some (loadingMutFn cfg.loadingMutation.state) →
        runCommits muts st (Action.execute cfg outcome actionData).commits = .ok st' →
        Obj.get st' cfg.loadingMutation.state = some (.vBool false) := by
  unfold Action.execute
  rw [hgen]
  cases outcome with
  | success resData =>
      exact ⟨rfl, rfl, getLast?_cons_append_singleton _ _ _,
        fun muts st st' hm hr => runCommits_last_false muts st st' _ _ _ hm hr⟩
  | failure err =>
      exact ⟨rfl, rfl, getLast?_cons_append_singleton _ _ [],
        fun muts st st' hm hr =>
          runCommits_last_false muts st st'
            [⟨cfg.loadingMutation.name, .vBool true, .vUndefined⟩] _ _ hm hr⟩

/-- C1 witness: on the concrete fetch configuration and a failing HTTP call,
the last commit sets the loading flag false. -/
theorem c1_loading_flag_released_witness :
    (Action.execute fetchCfg (.failure (.vStr "network down")) .vNull).commits.getLast? =
      some ⟨"SET_FETCHING_USERS", .vBool false, .vUndefined⟩ :=
  (c1_loading_flag_released fetchCfg (.failure (.vStr "network down")) .vNull
    fetchUserDef rfl).2.2.1

/-- C1 counterexample: with an invalid action kind the default generator
throws before the try block, so `execute` rejects after the single
loading-true commit; replaying the commits leaves the loading-flag state
true, refuting the claim for the request-descriptor-generation-failure
outcome. -/
theorem c1_loading_flag_released_counterexample :
    (Action.execute badCfg (.success (.vArr [])) .vNull).thrown =
      some "badAction is not a valid CRUD action"
    ∧ (Action.execute badCfg (.success (.vArr [])) .vNull).commits =
        [⟨"SET_FETCHING_USERS", .vBool true, .vUndefined⟩]
    ∧ runCommits (Action.mutations badCfg) [("fetchingUsers", .vNull)]
        (Action.execute badCfg (.success (.vArr [])) .vNull).commits =
        .ok [("fetchingUsers", .vBool true)] :=
  ⟨rfl, rfl, rfl⟩

/-- C2: for every execute call whose HTTP call fails with an error E after a
successful request-descriptor generation, execute resolves without throwing
and returns no result, the error callback is invoked exactly once with the
action kind, E and the resource name, no success callback runs, the only
commits are the two loading-flag commits, and replaying them leaves every
state key other than the loading flag unchanged and the loading flag
false. -/
theorem c2_error_path (cfg : ActionConfig) (err actionData : Value)
    (apiDef : APIDefinition)
    (hgen : cfg.generateConfig cfg.resourceName.original cfg.actionType actionData
      = .ok apiDef) :
    (Action.execute cfg (.failure err) actionData).thrown = none
    ∧ (Action.execute cfg (.failure err) actionData).result = none
    ∧ (Action.execute cfg (.failure err) actionData).errorCalls =
        [(cfg.actionType, err, cfg.resourceName.original)]
    ∧ (Action.execute cfg (.failure err) actionData).successCalls = []
    ∧ (Action.execute cfg (.failure err) actionData).commits =
        [⟨cfg.loadingMutation.name, .vBool true, .vUndefined⟩,
         ⟨cfg.loadingMutation.name, .vBool false, .vUndefined⟩]
    ∧ ∀ (muts : Obj MutationFun) (st st' : StoreState),
        Obj.get muts cfg.loadingMutation.name =
          some (loadingMutFn cfg.loadingMutation.state) →
        runCommits muts st (Action.execute cfg (.failure err) actionData).commits
          = .ok st' →
        Obj.get st' cfg.loadingMutation.state = some (.vBool false)
        ∧ ∀ k, k ≠ cfg.loadingMutation.state → Obj.get st' k = Obj.get st k := by
  unfold Action.execute
  rw [hgen]
  refine ⟨rfl, rfl, rfl, rfl, rfl, ?_⟩
  intro muts st st' hm hr
  simp only [runCommits, hm, loadingMutFn, truthy] at hr
  have hst : Obj.set (Obj.set st cfg.loadingMutation.state (.vBool true))
      cfg.loadingMutation.state (.vBool false) = st' := Except.ok.inj hr
  subst hst
  refine ⟨Obj.get_set_self _ _ _, ?_⟩
  intro k hk
  rw [Obj.get_set_ne _ _ _ _ hk, Obj.get_set_ne _ _ _ _ hk]

/-- C2 witness: on the concrete fetch configuration and a failing HTTP call,
the error callback fires once with the action kind, the error and the
resource name. -/
theorem c2_error_path_witness :
    (Action.execute fetchCfg (.failure (.vStr "network error")) .vNull).errorCalls =
      [(CrudAction.fetchItems, .vStr "network error", "user")] :=
  (c2_error_path fetchCfg (.vStr "network error") .vNull fetchUserDef rfl).2.2.1

/-- C3: for every execute call whose HTTP call succeeds after a successful
request-descriptor generation, when the commit-state flag is true the
primary mutation is committed with the state-mapped response payload
together with the original input data (between the two loading commits),
the success callback is invoked with the action kind, the state-mapped
payload and the resource name, and the data-mapped response payload is
returned to the caller. -/
theorem c3_success_path (cfg : ActionConfig) (resData actionData : Value)
    (apiDef : APIDefinition)
    (hgen : cfg.generateConfig cfg.resourceName.original cfg.actionType actionData
      = .ok apiDef)
    (hcommit : cfg.commitState = true) :
    (Action.execute cfg (.success resData) actionData).commits =
        [⟨cfg.loadingMutation.name, .vBool true, .vUndefined⟩,
         ⟨cfg.mutationName, apiDef.stateMapper resData, actionData⟩,
         ⟨cfg.loadingMutation.name, .vBool false, .vUndefined⟩]
    ∧ (Action.execute cfg (.success resData) actionData).successCalls =
        [(cfg.actionType, apiDef.stateMapper resData, cfg.resourceName.original)]
    ∧ (Action.execute cfg (.success resData) actionData).result =
        some (apiDef.dataMapper resData)
    ∧ (Action.execute cfg (.success resData) actionData).errorCalls = []
    ∧ (Action.execute cfg (.success resData) actionData).thrown = none := by
  unfold Action.execute
  rw [hgen]
  refine ⟨?_, rfl, rfl, rfl, rfl⟩
  simp [hcommit]

/-- C3 witness: on the concrete fetch configuration (identity mappers) a
successful call commits the primary mutation with the payload and the input
data and returns the payload. -/
theorem c3_success_path_witness :
    (Action.execute fetchCfg (.success (.vObj [("a", .vNum 1)])) .vNull).commits =
      [⟨"SET_FETCHING_USERS", .vBool true, .vUndefined⟩,
       ⟨"SET_USERS", .vObj [("a", .vNum 1)], .vNull⟩,
       ⟨"SET_FETCHING_USERS", .vBool false, .vUndefined⟩]
    ∧ (Action.execute fetchCfg (.success (.vObj [("a", .vNum 1)])) .vNull).result =
      some (.vObj [("a", .vNum 1)]) := by
  have h := c3_success_path fetchCfg (.vObj [("a", .vNum 1)]) .vNull fetchUserDef rfl rfl
  exact ⟨h.1, h.2.2.1⟩

/-- C10: for every execute call whose HTTP call succeeds while the
commit-state flag is false, the only commits are the two loading-flag
commits — replaying them leaves every state key other than the loading flag
unchanged — yet the success callback is still invoked with the action kind,
the state-mapped payload and the resource name, and the data-mapped
response payload is still returned to the caller. -/
theorem c10_commit_state_off_frame (cfg : ActionConfig) (resData actionData : Value)
    (apiDef : APIDefinition)
    (hgen : cfg.generateConfig cfg.resourceName.original cfg.actionType actionData
      = .ok apiDef)
    (hcommit : cfg.commitState = false) :
    (Action.execute cfg (.success resData) actionData).commits =
        [⟨cfg.loadingMutation.name, .vBool true, .vUndefined⟩,
         ⟨cfg.loadingMutation.name, .vBool false, .vUndefined⟩]
    ∧ (Action.execute cfg (.success resData) actionData).successCalls =
        [(cfg.actionType, apiDef.stateMapper resData, cfg.resourceName.original)]
    ∧ (Action.execute cfg (.success resData) actionData).result =
        some (apiDef.dataMapper resData)
    ∧ (Action.execute cfg (.success resData) actionData).errorCalls = []
    ∧ (Action.execute cfg (.success resData) actionData).thrown = none
    ∧ ∀ (muts : Obj MutationFun) (st st' : StoreState),
        Obj.get muts cfg.loadingMutation.name =
          some (loadingMutFn cfg.loadingMutation.state) →
        runCommits muts st (Action.execute cfg (.success resData) actionData).commits
          = .ok st' →
        ∀ k, k ≠ cfg.loadingMutation.state → Obj.get st' k = Obj.get st k := by
  unfold Action.execute
  rw [hgen]
  refine ⟨by simp [hcommit], rfl, rfl, rfl, rfl, ?_⟩
  intro muts st st' hm hr
  simp only [hcommit, if_false, List.nil_append, runCommits, hm, loadingMutFn,
    truthy] at hr
  have hst : Obj.set (Obj.set st cfg.loadingMutation.state (.vBool true))
      cfg.loadingMutation.state (.vBool false) = st' := Except.ok.inj hr
  subst hst
  intro k hk
  rw [Obj.get_set_ne _ _ _ _ hk, Obj.get_set_ne _ _ _ _ hk]

/-- C10 witness: with the commit-state flag off, a successful fetch commits
only the loading flag yet still invokes the success callback and returns
the payload. -/
theorem c10_commit_state_off_frame_witness :
    (Action.execute fetchCfgNoCommit (.success (.vNum 3)) .vNull).commits =
      [⟨"SET_FETCHING_USERS", .vBool true, .vUndefined⟩,
       ⟨"SET_FETCHING_USERS", .vBool false, .vUndefined⟩]
    ∧ (Action.execute fetchCfgNoCommit (.success (.vNum 3)) .vNull).successCalls =
      [(CrudAction.fetchItems, .vNum 3, "user")]
    ∧ (Action.execute fetchCfgNoCommit (.success (.vNum 3)) .vNull).result =
      some (.vNum 3) := by
  have h := c10_commit_state_off_frame fetchCfgNoCommit (.vNum 3) .vNull
    fetchUserDef rfl rfl
  exact ⟨h.1, h.2.1, h.2.2.1⟩

/-- C4: for every resource name and input data, the default
request-descriptor generator produces exactly GET `/resource` for
fetch-items, GET `/resource/input` for get-item, POST `/resource` with the
input as body for create-item, DELETE `/resource/input` for delete-item and
PUT `/resource/input[idAttribute]` with the input as body for update-item,
each with identity data/state mappers and no params; any other ActionKind
value makes the generator fail immediately with an error, and an execute
call so configured rejects with that error without consulting the HTTP
outcome and without invoking either callback. -/
theorem c4_default_request_descriptors (resource idAttribute : String)
    (actionData : Value) :
    generateAxiosRequestConfig idAttribute none resource .fetchItems actionData =
      .ok { method := "GET", url := "/" ++ resource, params := none, data := none,
            dataMapper := fun e => e, stateMapper := fun e => e }
    ∧ generateAxiosRequestConfig idAttribute none resource .getItem actionData =
      .ok { method := "GET",
            url := "/" ++ resource ++ "/" ++ actionData.toDisplayString,
            params := none, data := none,
            dataMapper := fun e => e, stateMapper := fun e => e }
    ∧ generateAxiosRequestConfig idAttribute none resource .createItem actionData =
      .ok { method := "POST", url := "/" ++ resource, params := none,
            data := some actionData,
            dataMapper := fun e => e, stateMapper := fun e => e }
    ∧ generateAxiosRequestConfig idAttribute none resource .deleteItem actionData =
      .ok { method := "DELETE",
            url := "/" ++ resource ++ "/" ++ actionData.toDisplayString,
            params := none, data := none,
            dataMapper := fun e => e, stateMapper := fun e => e }
    ∧ generateAxiosRequestConfig idAttribute none resource .updateItem actionData =
      .ok { method := "PUT",
            url := "/" ++ resource ++ "/" ++
              (actionData.getField idAttribute).toDisplayString,
            params := none, data := some actionData,
            dataMapper := fun e => e, stateMapper := fun e => e }
    ∧ (∀ invalid : String,
        generateAxiosRequestConfig idAttribute none resource (.other invalid)
            actionData =
          .error (invalid ++ " is not a valid CRUD action"))
    ∧ ∀ (cfg : ActionConfig) (invalid : String) (outcome outcome' : HttpOutcome)
        (ad : Value),
        cfg.generateConfig = generateAxiosRequestConfig idAttribute none →
        cfg.actionType = .other invalid →
        Action.execute cfg outcome ad = Action.execute cfg outcome' ad
        ∧ (Action.execute cfg outcome ad).thrown =
            some (invalid ++ " is not a valid CRUD action")
        ∧ (Action.execute cfg outcome ad).successCalls = []
        ∧ (Action.execute cfg outcome ad).errorCalls = [] := by
  refine ⟨rfl, rfl, rfl, rfl, rfl, fun invalid => rfl, ?_⟩
  intro cfg invalid outcome outcome' ad hg ha
  unfold Action.execute
  rw [hg, ha]
  exact ⟨rfl, rfl, rfl, rfl⟩

/-- C4 witness: the concrete fetch descriptor for `user`, and the concrete
invalid-kind configuration rejecting with the generator's error while
making no callback. -/
theorem c4_default_request_descriptors_witness :
    generateAxiosRequestConfig "id" none "user" .fetchItems .vNull =
      .ok fetchUserDef
    ∧ (Action.execute badCfg (.success (.vArr [])) .vNull).successCalls = [] := by
  have h := c4_default_request_descriptors "user" "id" .vNull
  exact ⟨h.1,
    (h.2.2.2.2.2.2 badCfg "badAction" (.success (.vArr [])) (.failure .vNull)
      .vNull rfl rfl).2.2.1⟩

/-- C5 (amended): for every collection state value and payload, the add-item
mutation behaves as: if the collection state is absent or otherwise falsy it
is initialized to an empty collection and the payload appended; if the
collection state is truthy but not a sequence, an error is signaled and the
state is not modified; otherwise the payload is appended to the end of the
existing sequence. (The original claim required the error for every present
non-sequence value; the counterexample shows a present falsy non-sequence
value is silently re-initialized instead.) -/
theorem c5_add_item (itemsKey : String) (st : StoreState)
    (payload actionData : Value) :
    (truthy (StoreState.read st itemsKey) = false →
      addItemMutFn itemsKey st payload actionData =
        .ok (Obj.set st itemsKey (.vArr [payload])))
    ∧ (∀ xs, StoreState.read st itemsKey = .vArr xs →
      addItemMutFn itemsKey st payload actionData =
        .ok (Obj.set st itemsKey (.vArr (xs ++ [payload]))))
    ∧ (∀ v, StoreState.read st itemsKey = v → truthy v = true → isArray v = false →
      addItemMutFn itemsKey st payload actionData =
        .error (itemsKey ++ " state is not an array")) := by
  refine ⟨?_, ?_, ?_⟩
  · intro h
    have hread : StoreState.read (Obj.set st itemsKey (.vArr [])) itemsKey =
        .vArr [] := by
      unfold StoreState.read
      rw [Obj.get_set_self]
      rfl
    unfold addItemMutFn
    rw [if_neg (by simp [h])]
    simp only [hread, Obj.set_set_self]
    rfl
  · intro xs hx
    unfold addItemMutFn
    rw [if_pos (by rw [hx]; rfl)]
    simp only [hx]
  · intro v hv htr hna
    unfold addItemMutFn
    rw [if_pos (by rw [hv, htr])]
    simp only [hv]
    cases v with
    | vArr elems => exact absurd hna (by simp [isArray])
    | vUndefined => rfl
    | vNull => rfl
    | vBool b => rfl
    | vNum n => rfl
    | vStr s => rfl
    | vObj fields => rfl

/-- C5 witness: appending to an existing collection, the spec's example:
state `[ obj with id 1 ]` plus payload `obj with id 2` yields both in
order. -/
theorem c5_add_item_witness :
    addItemMutFn "users" [("users", .vArr [.vObj [("id", .vNum 1)]])]
        (.vObj [("id", .vNum 2)]) .vUndefined =
      .ok [("users", .vArr [.vObj [("id", .vNum 1)], .vObj [("id", .vNum 2)]])] :=
  (c5_add_item "users" [("users", .vArr [.vObj [("id", .vNum 1)]])]
      (.vObj [("id", .vNum 2)]) .vUndefined).2.1
    [.vObj [("id", .vNum 1)]] rfl

/-- C5 counterexample: a collection state holding the boolean `false` is
present and not a sequence, yet the mutation signals no error: the state is
silently replaced by a fresh singleton collection, refuting the claim's
error branch. -/
theorem c5_add_item_counterexample :
    Obj.get [("users", Value.vBool false)] "users" = some (.vBool false)
    ∧ isArray (Value.vBool false) = false
    ∧ addItemMutFn "users" [("users", Value.vBool false)]
        (.vObj [("id", .vNum 2)]) .vUndefined =
      .ok [("users", .vArr [.vObj [("id", .vNum 2)]])] :=
  ⟨rfl, rfl, rfl⟩

/-- C6: for every payload, the update-item mutation signals a fatal error
when the collection state is not a sequence; when it is a sequence it
replaces the first element whose id attribute strictly equals the payload's
id attribute with the payload, in place; and it leaves the store completely
unchanged when no element's id attribute matches. -/
theorem c6_update_item (itemsKey idAttribute : String) (st : StoreState)
    (payload actionData : Value) :
    (∀ v, StoreState.read st itemsKey = v → isArray v = false →
      updateItemMutFn itemsKey idAttribute st payload actionData =
        .error (itemsKey ++ " state is not an array"))
    ∧ (∀ xs, StoreState.read st itemsKey = .vArr xs →
      (∀ e ∈ xs,
        strictEq (e.getField idAttribute) (payload.getField idAttribute) = false) →
      updateItemMutFn itemsKey idAttribute st payload actionData = .ok st)
    ∧ (∀ pre e post, StoreState.read st itemsKey = .vArr (pre ++ e :: post) →
      (∀ x ∈ pre,
        strictEq (x.getField idAttribute) (payload.getField idAttribute) = false) →
      strictEq (e.getField idAttribute) (payload.getField idAttribute) = true →
      updateItemMutFn itemsKey idAttribute st payload actionData =
        .ok (Obj.set st itemsKey (.vArr (pre ++ payload :: post)))) := by
  refine ⟨?_, ?_, ?_⟩
  · intro v hv hna
    unfold updateItemMutFn
    rw [hv]
    cases v with
    | vArr elems => exact absurd hna (by simp [isArray])
    | vUndefined => rfl
    | vNull => rfl
    | vBool b => rfl
    | vNum n => rfl
    | vStr s => rfl
    | vObj fields => rfl
  · intro xs hx hnone
    simp only [updateItemMutFn, hx]
    rw [List.findIdx?_eq_none_iff.mpr hnone]
  · intro pre e post hx hpre he
    simp only [updateItemMutFn, hx]
    rw [findIdx?_first_match _ pre post e hpre he]
    simp only [set_append_length]

/-- C6 witness: the spec's examples: updating `[ obj(id 1, name a) ]` with
`obj(id 1, name b)` replaces the element, and updating with `obj(id 9)`
leaves the store unchanged. -/
theorem c6_update_item_witness :
    updateItemMutFn "users" "id"
        [("users", .vArr [.vObj [("id", .vNum 1), ("name", .vStr "a")]])]
        (.vObj [("id", .vNum 1), ("name", .vStr "b")]) .vUndefined =
      .ok [("users", .vArr [.vObj [("id", .vNum 1), ("name", .vStr "b")]])]
    ∧ updateItemMutFn "users" "id"
        [("users", .vArr [.vObj [("id", .vNum 1), ("name", .vStr "a")]])]
        (.vObj [("id", .vNum 9)]) .vUndefined =
      .ok [("users", .vArr [.vObj [("id", .vNum 1), ("name", .vStr "a")]])] := by
  constructor
  · exact (c6_update_item "users" "id"
        [("users", .vArr [.vObj [("id", .vNum 1), ("name", .vStr "a")]])]
        (.vObj [("id", .vNum 1), ("name", .vStr "b")]) .vUndefined).2.2
      [] (.vObj [("id", .vNum 1), ("name", .vStr "a")]) [] rfl
      (by intro x hx; exact absurd hx (List.not_mem_nil x)) rfl
  · exact (c6_update_item "users" "id"
        [("users", .vArr [.vObj [("id", .vNum 1), ("name", .vStr "a")]])]
        (.vObj [("id", .vNum 9)]) .vUndefined).2.1
      [.vObj [("id", .vNum 1), ("name", .vStr "a")]] rfl
      (by intro e he; rw [List.mem_singleton] at he; subst he; rfl)

/-- C7: for every collection state and original action input value, the
delete-item mutation removes from a sequence collection exactly the
elements whose id attribute strictly equals the committed `actionData` (the
action's original input, independent of the response payload, as the second
conjunct states), keeping the rest in order; on a non-sequence collection
it is a no-op and signals no error. -/
theorem c7_delete_item (itemsKey idAttribute : String) (st : StoreState)
    (data data' actionData : Value) :
    (∀ v, StoreState.read st itemsKey = v → isArray v = false →
      deleteItemMutFn itemsKey idAttribute st data actionData = .ok st)
    ∧ deleteItemMutFn itemsKey idAttribute st data actionData =
        deleteItemMutFn itemsKey idAttribute st data' actionData
    ∧ (∀ xs, StoreState.read st itemsKey = .vArr xs →
      deleteItemMutFn itemsKey idAttribute st data actionData =
        .ok (Obj.set st itemsKey (.vArr (xs.filter
          (fun e => !(strictEq (e.getField idAttribute) actionData)))))
      ∧ (xs.filter
          (fun e => !(strictEq (e.getField idAttribute) actionData))).Sublist xs
      ∧ ∀ e, e ∈ xs.filter
            (fun e => !(strictEq (e.getField idAttribute) actionData)) ↔
          e ∈ xs ∧ strictEq (e.getField idAttribute) actionData = false) := by
  refine ⟨?_, rfl, ?_⟩
  · intro v hv hna
    unfold deleteItemMutFn
    rw [hv]
    cases v with
    | vArr elems => exact absurd hna (by simp [isArray])
    | vUndefined => rfl
    | vNull => rfl
    | vBool b => rfl
    | vNum n => rfl
    | vStr s => rfl
    | vObj fields => rfl
  · intro xs hx
    refine ⟨?_, List.filter_sublist xs, ?_⟩
    · unfold deleteItemMutFn
      rw [hx]
    · intro e
      rw [List.mem_filter]
      simp [Bool.not_eq_true']

/-- C7 witness: the spec's example: deleting with original input `1` from
`[ obj(id 1), obj(id 2) ]` keeps only `obj(id 2)`; a non-sequence
collection (`null`) is left untouched without an error. -/
theorem c7_delete_item_witness :
    deleteItemMutFn "users" "id"
        [("users", .vArr [.vObj [("id", .vNum 1)], .vObj [("id", .vNum 2)]])]
        .vUndefined (.vNum 1) =
      .ok [("users", .vArr [.vObj [("id", .vNum 2)]])]
    ∧ deleteItemMutFn "users" "id" [("users", .vNull)] .vUndefined (.vNum 1) =
      .ok [("users", .vNull)] := by
  constructor
  · exact ((c7_delete_item "users" "id"
        [("users", .vArr [.vObj [("id", .vNum 1)], .vObj [("id", .vNum 2)]])]
        .vUndefined .vNull (.vNum 1)).2.2
      [.vObj [("id", .vNum 1)], .vObj [("id", .vNum 2)]] rfl).1
  · exact (c7_delete_item "users" "id" [("users", .vNull)]
      .vUndefined .vNull (.vNum 1)).1 .vNull rfl rfl

/-- C8: buildModule merges with later entries winning: any key bound in the
additional state or additional actions reads back with the additional value
in the built module, silently replacing any default under the same key; a
key not bound in the additional state keeps its default-part value; and the
five default mutations are always present in the result. -/
theorem c8_build_module_merge (m : CrudModule)
    (hs : (m.additionalState.map Prod.fst).Nodup)
    (ha : (m.additionalActions.map Prod.fst).Nodup) :
    (∀ k v, Obj.get m.additionalState k = some v →
      Obj.get m.getModule.state k = some v)
    ∧ (∀ k f, Obj.get m.additionalActions k = some f →
      Obj.get m.getModule.actions k = some f)
    ∧ (∀ k, k ∉ m.additionalState.map Prod.fst →
      Obj.get m.getModule.state k =
        Obj.get (Obj.merge
          (m.actions.foldl (fun acc a => Obj.merge acc (Action.state a)) [])
          [(m.states.items, .vNull), (m.states.currentItem, .vNull)]) k)
    ∧ (Obj.get m.getModule.mutations m.mutations.setItems).isSome = true
    ∧ (Obj.get m.getModule.mutations m.mutations.setCurrentItem).isSome = true
    ∧ (Obj.get m.getModule.mutations m.mutations.addItem).isSome = true
    ∧ (Obj.get m.getModule.mutations m.mutations.updateItem).isSome = true
    ∧ (Obj.get m.getModule.mutations m.mutations.deleteItem).isSome = true := by
  refine ⟨?_, ?_, ?_, ?_, ?_, ?_, ?_, ?_⟩
  · intro k v hk
    exact Obj.get_merge_of_nodup _ _ _ _ hs hk
  · intro k f hk
    exact Obj.get_merge_of_nodup _ _ _ _ ha hk
  · intro k hk
    exact Obj.get_merge_not_mem _ _ _ hk
  all_goals
    (simp only [CrudModule.getModule, CrudModule.buildMutations];
     exact Obj.isSome_get_merge_of_mem _ _ _ (by simp))

/-- C8 witness: for the `user` module with additional state, the additional
binding for the derived collection key `users` silently replaces the
default null, the untouched key `extra` is present, and the five default
mutations are present. -/
theorem c8_build_module_merge_witness :
    Obj.get userModuleCustom.getModule.state "users" = some (.vNum 7)
    ∧ Obj.get userModuleCustom.getModule.state "extra" = some (.vStr "x")
    ∧ (Obj.get userModuleCustom.getModule.mutations "SET_USERS").isSome = true
    ∧ (Obj.get userModuleCustom.getModule.mutations "DELETE_USER").isSome = true := by
  have h := c8_build_module_merge userModuleCustom (by decide) (by decide)
  obtain ⟨h1, h2, h3, h4, h5, h6, h7, h8⟩ := h
  have e1 : userModuleCustom.mutations.setItems = "SET_USERS" := rfl
  have e2 : userModuleCustom.mutations.deleteItem = "DELETE_USER" := rfl
  rw [e1] at h4
  rw [e2] at h8
  exact ⟨h1 "users" _ rfl, h1 "extra" _ rfl, h4, h8⟩

/-- C9: producing a module through the factory's create leaves the template
instance unchanged (the pair's first component is the template after the
call); the produced module does not depend on the template's prior resource
descriptor, only on the requested name (deep-independent resource
descriptor); creating again from the returned template yields a
structurally identical module descriptor; and the shallow copy preserves
every field of the template. -/
theorem c9_factory_create_independent (t : CrudModule) (resource : String)
    (x : ResourceName) :
    (t.getFactory.create resource).1 = t
    ∧ (t.getFactory.create resource).2 =
        (({ t with resourceName := x } : CrudModule).getFactory.create resource).2
    ∧ ((t.getFactory.create resource).1.getFactory.create resource).2 =
        (t.getFactory.create resource).2
    ∧ shallowCopy t = t :=
  ⟨rfl, rfl, rfl, rfl⟩

end VuexCrud
